import Mathlib

set_option maxHeartbeats 1000000
set_option linter.unusedVariables false

/-!
Verification development for the album downloader.

The program fetches an album listing, extracts track descriptors, and downloads
each track plus the cover under a bounded-concurrency scheduler.  This file
embeds the relevant source functions and proves or refutes the specification
claims about them:

- `cleanUpSymbols` — the sanitizer (regex character class removal);
- `executeInChunks` / `keepQueueSizeStep` — the bounded scheduler, modelled as a
  state machine over settlement events (each event names which window position
  settles first in the `Promise.race`, and whether that task fulfilled or
  rejected);
- `downloadFile`, `downloadTrack`, `downloadCover`, `prepareAlbumDir`,
  `mainRun` — the download tasks and the top-level orchestrator, modelled as
  effect-trace producing functions over outcome oracles.
-/

/-- Track descriptor as produced by the listing parser (`getLinksAndTags`). -/
structure TrackInfo where
  url : String
  trackNo : String
  title : String
  artist : String
  album : String
deriving DecidableEq

/-- The characters matched by the sanitizer regex class in the source,
namely colon, slash, double quote, asterisk, less-than, greater-than,
vertical bar and question mark. -/
def forbiddenChar (c : Char) : Bool :=
  c == ':' || c == '/' || c == '"' || c == '*' || c == '<' || c == '>' ||
    c == '|' || c == '?'

/-- `cleanUpSymbols` replaces every occurrence of a character of the regex
class with the empty string, i.e. it filters those characters out. -/
def cleanUpSymbols (s : String) : String :=
  String.mk (s.data.filter (fun c => !forbiddenChar c))

/-!
Bounded scheduler (`executeInChunks` in the source).

The source forms `queueArray = callbackArgs.splice(0, queueSize).map(execWith)`
where `execWith = async (element, index) => { await callback(element); return
index; }`, then repeatedly races the window: on a fulfilled race it runs
`queueArray.splice(index, 1, execWith(callbackArgs.shift(), index))` and
recurses; on a rejected race it logs "Cannot assemble another chunk" and
rethrows, installing no replacement.

The embedding is a state machine.  A window entry (`Slot`) records the index
the promise was built with (`tag`), the backlog item it processes (`item`), and
whether that promise has settled without having been replaced (`settled`;
replacement being atomic in the source, this flag only ever becomes true for a
rejected promise, which the catch branch leaves in place).  A settlement event
names the window position whose task settles first in the race, and whether it
fulfilled or rejected.
-/

/-- One entry of the scheduler window `queueArray`. -/
structure Slot (α : Type) where
  tag : Nat
  item : α
  settled : Bool
deriving DecidableEq

/-- `execWith(element, index)`: a fresh window task that will resolve with
`index` once the callback for `element` settles. -/
def execWith {α : Type} (element : α) (index : Nat) : Slot α :=
  ⟨index, element, false⟩

/-- Indexed map used for `callbackArgs.splice(0, queueSize).map(execWith)`:
tags the elements with consecutive indices starting at `i`. -/
def tagFrom {α : Type} (i : Nat) : List α → List (Slot α)
  | [] => []
  | a :: as => execWith a i :: tagFrom (i + 1) as

/-- Scheduler state: the remaining backlog (`callbackArgs` after splices and
shifts), the window (`queueArray`), the trace of items for which the callback
has been invoked (in invocation order), and whether the catch branch has run. -/
structure SchedState (α : Type) where
  backlog : List α
  window : List (Slot α)
  dispatched : List α
  aborted : Bool
deriving DecidableEq

/-- State after the initial dispatch
`queueArray = callbackArgs.splice(0, queueSize).map(execWith)`. -/
def executeInChunksInit {α : Type} (callbackArgs : List α) (queueSize : Nat) :
    SchedState α :=
  { backlog := callbackArgs.drop queueSize
    window := tagFrom 0 (callbackArgs.take queueSize)
    dispatched := callbackArgs.take queueSize
    aborted := false }

/-- Whether the raced task fulfilled or rejected. -/
inductive Outcome
  | success
  | failure
deriving DecidableEq

/-- A settlement event: which window position settles first in
`Promise.race(queueArray)`, and how. -/
structure Event where
  pos : Nat
  outcome : Outcome
deriving DecidableEq

/-- One round of `keepQueueSize`.  With a non-empty backlog the race is
awaited: a fulfilled race resolves with the settled task stored index
(`slot.tag`) and the source splices `execWith(callbackArgs.shift(), index)` in
at position `index`; a rejected race marks the rejected promise as settled in
place (the catch branch installs nothing) and aborts.  With an empty backlog
`keepQueueSize` returns at once and no event is ever observed.  Events naming a
position outside the window correspond to no promise and are ignored. -/
def keepQueueSizeStep {α : Type} (s : SchedState α) (e : Event) : SchedState α :=
  if s.aborted then s
  else
    match s.backlog with
    | [] => s
    | next :: rest =>
      match s.window.get? e.pos with
      | none => s
      | some slot =>
        match e.outcome with
        | Outcome.failure =>
          { s with
            window := s.window.set e.pos { slot with settled := true }
            aborted := true }
        | Outcome.success =>
          { backlog := rest
            window := s.window.set slot.tag (execWith next slot.tag)
            dispatched := s.dispatched ++ [next]
            aborted := false }

/-- Run the scheduler over a sequence of settlement events. -/
def schedRun {α : Type} (s : SchedState α) : List Event → SchedState α
  | [] => s
  | e :: es => schedRun (keepQueueSizeStep s e) es

/-- `executeInChunks callbackArgs queueSize events`: initial dispatch followed
by the `keepQueueSize` rounds driven by `events`. -/
def executeInChunks {α : Type} (callbackArgs : List α) (queueSize : Nat)
    (events : List Event) : SchedState α :=
  schedRun (executeInChunksInit callbackArgs queueSize) events

/-- Every state visited during a run, initial and final states included. -/
def schedStates {α : Type} (s : SchedState α) : List Event → List (SchedState α)
  | [] => [s]
  | e :: es => s :: schedStates (keepQueueSizeStep s e) es

/-- Number of in-flight (started and not yet settled) tasks in the window. -/
def inFlight {α : Type} (s : SchedState α) : Nat :=
  s.window.countP (fun sl => !sl.settled)

/-- Work not yet completed: pending backlog items plus in-flight tasks. -/
def remainingWork {α : Type} (s : SchedState α) : Nat :=
  s.backlog.length + inFlight s

/-- Master invariant of the scheduler over a run on original backlog `xs` with
concurrency limit `L`: the window length is pinned at `min L N`; the current
backlog is a suffix of the initially undispatched part; the dispatch trace and
the backlog partition the original list; each window entry carries its own
position as tag; and until the catch branch runs, nothing in the window is
settled without replacement. -/
def SchedInv {α : Type} (xs : List α) (L : Nat) (s : SchedState α) : Prop :=
  s.window.length = min L xs.length ∧
  s.backlog <:+ xs.drop L ∧
  s.dispatched ++ s.backlog = xs ∧
  (∀ p sl, s.window.get? p = some sl → sl.tag = p) ∧
  (s.aborted = false → ∀ sl ∈ s.window, sl.settled = false)

/-!
Track download task, directory preparation, cover download and orchestrator
(the `async` IIFE at the bottom of the source).  These are embedded as pure
functions that return the ordered trace of externally visible effects,
together with the fulfilled or rejected result of the modelled promise.
Outcomes of the external world (whether the album directory already exists,
whether the directory creations succeed, whether an HTTP fetch succeeds) are
supplied by oracle arguments.  The scheduler invocation itself is recorded as
a single `Effect.schedule` carrying the backlog and the concurrency limit; its
internal behaviour is covered by the state machine above.
-/

/-- Failures a modelled promise can reject with. -/
inductive JsError
  | typeError (msg : String)
  | fetchError (msg : String)
deriving DecidableEq

/-- String interpolation of an error value, as in the template literal of the
top-level catch. -/
def errString : JsError → String
  | JsError.typeError m => "TypeError: " ++ m
  | JsError.fetchError m => "RequestError: " ++ m

/-- Externally visible effects, in program order. -/
inductive Effect
  | fsAccess (path : String) (found : Bool)
  | fsMkdir (path : String) (ok : Bool)
  | fileWrite (url : String) (filename : String)
  | schedule (backlog : List TrackInfo) (limit : Nat)
  | log (msg : String)
deriving DecidableEq

/-- Whether an effect is a console log (as opposed to a filesystem or
scheduling effect). -/
def Effect.isLog : Effect → Bool
  | Effect.log _ => true
  | _ => false

/-- The console messages of a trace, in order. -/
def logsOf (tr : List Effect) : List String :=
  tr.filterMap fun e =>
    match e with
    | Effect.log m => some m
    | _ => none

/-- Whether `pat` occurs at the start of `s`. -/
def listStartsWith : List Char → List Char → Bool
  | [], _ => true
  | _ :: _, [] => false
  | a :: as, b :: bs => a == b && listStartsWith as bs

/-- Whether `pat` occurs contiguously anywhere inside the second list. -/
def listInfixOf (pat : List Char) : List Char → Bool
  | [] => listStartsWith pat []
  | b :: bs => listStartsWith pat (b :: bs) || listInfixOf pat bs

/-- Oracle for the filesystem interactions of `prepareAlbumDir`: whether
`fs.access` finds the album directory, and whether each `fs.mkdir` succeeds. -/
structure DirOracle where
  dirExists : Bool
  mkdirArtistOk : Bool
  mkdirAlbumOk : Bool
deriving DecidableEq

/-- `downloadFile(url, filename)`: pipes the HTTP response into a write stream
on `filename`; fulfills on finish and rejects on a stream error.  The write
stream is created in both cases. -/
def downloadFile (url filename : String) (fetchOk : Bool) :
    List Effect × Except JsError Unit :=
  if fetchOk then
    ([Effect.fileWrite url filename], Except.ok ())
  else
    ([Effect.fileWrite url filename], Except.error (JsError.fetchError url))

/-- `downloadTrack`: sanitizes every field but `url`, computes the target
filename, logs the start, then streams the resource; on completion it logs
success, on failure it logs the failure and rethrows. -/
def downloadTrack (t : TrackInfo) (fetchOk : Bool) :
    List Effect × Except JsError Unit :=
  let trackNo := cleanUpSymbols t.trackNo
  let title := cleanUpSymbols t.title
  let artist := cleanUpSymbols t.artist
  let album := cleanUpSymbols t.album
  let filename :=
    artist ++ "/" ++ album ++ "/" ++ trackNo ++ " - " ++ title ++ ".mp3"
  let fetched := downloadFile t.url filename fetchOk
  match fetched.2 with
  | Except.ok _ =>
    (Effect.log ("Starting download: " ++ trackNo ++ " - " ++ title) ::
        fetched.1 ++
        [Effect.log ("Download is finished: " ++ trackNo ++ " - " ++ title)],
      Except.ok ())
  | Except.error e =>
    (Effect.log ("Starting download: " ++ trackNo ++ " - " ++ title) ::
        fetched.1 ++
        [Effect.log ("Download is failed: " ++ trackNo ++ " - " ++ title)],
      Except.error e)

/-- `prepareAlbumDir`: reads `tracksData[0]`, which on an empty list throws a
type error inside the promise executor (rejecting the promise before any
filesystem call); otherwise checks the album directory with `fs.access` and,
when missing, creates artist and album directories.  Both `fs.mkdir` callbacks
in the source discard their error argument, so the mkdir outcomes recorded in
the trace never influence the result: the promise always resolves with the
album directory path. -/
def prepareAlbumDir (tracksData : List TrackInfo) (o : DirOracle) :
    List Effect × Except JsError String :=
  match tracksData with
  | [] => ([], Except.error (JsError.typeError "Cannot read property of undefined"))
  | t0 :: _ =>
    let artist := cleanUpSymbols t0.artist
    let album := cleanUpSymbols t0.album
    let albumDir := artist ++ "/" ++ album
    if o.dirExists then
      ([Effect.fsAccess albumDir true], Except.ok albumDir)
    else
      ([Effect.fsAccess albumDir false,
        Effect.fsMkdir artist o.mkdirArtistOk,
        Effect.fsMkdir albumDir o.mkdirAlbumOk], Except.ok albumDir)

/-- `downloadCover`: streams the cover into `albumDir/cover.jpg`; on success it
logs "Cover is downloaded", on failure it logs "Failed to download cover" and
swallows the error (the rethrow in the source is commented out), so the result
is fulfilled either way. -/
def downloadCover (coverURL albumDir : String) (fetchOk : Bool) :
    List Effect × Except JsError Unit :=
  let filename := albumDir ++ "/cover.jpg"
  let fetched := downloadFile coverURL filename fetchOk
  match fetched.2 with
  | Except.ok _ => (fetched.1 ++ [Effect.log "Cover is downloaded"], Except.ok ())
  | Except.error _ =>
    (fetched.1 ++ [Effect.log "Failed to download cover"], Except.ok ())

/-- Options extracted by `processArgs`: the concurrency limit (`-s`, default
5), the debug flag (`-d`) and the single-track override (`-t`).  `trackID` is
`false` or a number in the source; it is modelled as an optional natural, with
`some 0` being falsy exactly as the number `0` is. -/
structure RunOptions where
  parallelDownloads : Nat
  isDebugMode : Bool
  trackID : Option Nat
deriving DecidableEq

/-- The top-level catch: logs the batch failure summary and, in debug mode,
the stack trace. -/
def catchLog (e : JsError) (opts : RunOptions) : List Effect :=
  Effect.log ("Failed to download the album: " ++ errString e) ::
    (if opts.isDebugMode then [Effect.log "stack trace"] else [])

/-- The orchestrator (the `async` IIFE): given the already fetched and parsed
listing (or the listing fetch failure), awaits `prepareAlbumDir`; on the
single-track branch it runs the scheduler over `tracksData.slice(trackID - 1,
trackID)` with limit 1 and returns before the cover download; otherwise it
awaits the cover download and runs the scheduler over the full descriptor list
with the configured limit.  Any rejection reaching the top level is logged by
`catchLog`. -/
def mainRun (fetched : Except JsError (List TrackInfo × String))
    (opts : RunOptions) (dirO : DirOracle) (coverOk : Bool) : List Effect :=
  match fetched with
  | Except.error e => catchLog e opts
  | Except.ok (tracksData, coverURL) =>
    match (prepareAlbumDir tracksData dirO).2 with
    | Except.error e => (prepareAlbumDir tracksData dirO).1 ++ catchLog e opts
    | Except.ok albumDir =>
      match opts.trackID with
      | some k =>
        if k = 0 then
          (prepareAlbumDir tracksData dirO).1 ++
            (downloadCover coverURL albumDir coverOk).1 ++
            [Effect.schedule tracksData opts.parallelDownloads]
        else
          (prepareAlbumDir tracksData dirO).1 ++
            [Effect.schedule ((tracksData.drop (k - 1)).take 1) 1]
      | none =>
        (prepareAlbumDir tracksData dirO).1 ++
          (downloadCover coverURL albumDir coverOk).1 ++
          [Effect.schedule tracksData opts.parallelDownloads]

deriving instance DecidableEq for Except

/-- Fixture descriptors for concrete witness runs. -/
def sampleTrack1 : TrackInfo := ⟨"u1", "01", "S1", "Ar", "Al"⟩

/-- Fixture descriptor, second track. -/
def sampleTrack2 : TrackInfo := ⟨"u2", "02", "S2", "Ar", "Al"⟩

/-- Fixture descriptor, third track. -/
def sampleTrack3 : TrackInfo := ⟨"u3", "03", "S3", "Ar", "Al"⟩

/-- Fixture album used by concrete witness runs. -/
def sampleTracks : List TrackInfo := [sampleTrack1, sampleTrack2, sampleTrack3]

/-! Helper lemmas about list indexing used by the scheduler proofs. -/

theorem listSet_get?_self {β : Type} (l : List β) (i : Nat) (a : β)
    (h : i < l.length) : (l.set i a).get? i = some a := by
  induction l generalizing i with
  | nil => simp at h
  | cons b bs ih =>
    cases i with
    | zero => simp
    | succ n =>
      simp only [List.set, List.get?]
      exact ih n (by simpa using h)

theorem listSet_get?_ne {β : Type} (l : List β) (i j : Nat) (a : β)
    (hij : i ≠ j) : (l.set i a).get? j = l.get? j := by
  induction l generalizing i j with
  | nil => simp
  | cons b bs ih =>
    cases i with
    | zero =>
      cases j with
      | zero => exact absurd rfl hij
      | succ m => simp
    | succ n =>
      cases j with
      | zero => simp
      | succ m =>
        simp only [List.set, List.get?]
        exact ih n m (fun hc => hij (by rw [hc]))

theorem listGet?_some_lt {β : Type} {l : List β} {n : Nat} {a : β}
    (h : l.get? n = some a) : n < l.length := by
  induction l generalizing n with
  | nil => simp at h
  | cons b bs ih =>
    cases n with
    | zero => simp
    | succ m =>
      simp only [List.get?] at h
      exact Nat.succ_lt_succ (ih h)

theorem listGet?_isSome_of_lt {β : Type} {l : List β} {n : Nat}
    (h : n < l.length) : ∃ a, l.get? n = some a := by
  induction l generalizing n with
  | nil => simp at h
  | cons b bs ih =>
    cases n with
    | zero => exact ⟨b, rfl⟩
    | succ m => exact ih (by simpa using h)

theorem listMem_of_mem_set {β : Type} {l : List β} {i : Nat} {a x : β}
    (h : x ∈ l.set i a) : x ∈ l ∨ x = a := by
  induction l generalizing i with
  | nil => simp at h
  | cons b bs ih =>
    cases i with
    | zero =>
      rcases List.mem_cons.mp h with h0 | h0
      · exact Or.inr h0
      · exact Or.inl (List.mem_cons_of_mem _ h0)
    | succ n =>
      rcases List.mem_cons.mp h with h0 | h0
      · exact Or.inl (h0 ▸ List.mem_cons_self _ _)
      · rcases ih h0 with h1 | h1
        · exact Or.inl (List.mem_cons_of_mem _ h1)
        · exact Or.inr h1

theorem listTakeOne_drop {β : Type} {l : List β} {n : Nat} {t : β}
    (h : l.get? n = some t) : (l.drop n).take 1 = [t] := by
  induction l generalizing n with
  | nil => simp at h
  | cons b bs ih =>
    cases n with
    | zero =>
      simp only [List.get?] at h
      cases h
      rfl
    | succ m =>
      simp only [List.get?] at h
      simpa using ih h

theorem tagFrom_length {α : Type} (i : Nat) (xs : List α) :
    (tagFrom i xs).length = xs.length := by
  induction xs generalizing i with
  | nil => rfl
  | cons a as ih => simp [tagFrom, ih]

theorem tagFrom_get? {α : Type} (i : Nat) (xs : List α) (p : Nat) (sl : Slot α)
    (h : (tagFrom i xs).get? p = some sl) :
    sl.tag = i + p ∧ sl.settled = false := by
  induction xs generalizing i p with
  | nil => simp [tagFrom] at h
  | cons a as ih =>
    cases p with
    | zero =>
      simp [tagFrom] at h
      subst h
      exact ⟨rfl, rfl⟩
    | succ m =>
      simp only [tagFrom, List.get?] at h
      rcases ih (i + 1) m h with ⟨h1, h2⟩
      exact ⟨by omega, h2⟩

/-! Characterizations of one `keepQueueSize` round per branch. -/

theorem keepQueueSizeStep_of_aborted {α : Type} (s : SchedState α) (e : Event)
    (hab : s.aborted = true) : keepQueueSizeStep s e = s := by
  unfold keepQueueSizeStep
  simp [hab]

theorem keepQueueSizeStep_of_empty {α : Type} (s : SchedState α) (e : Event)
    (hbl : s.backlog = []) : keepQueueSizeStep s e = s := by
  unfold keepQueueSizeStep
  by_cases hab : s.aborted = true <;> simp [hab, hbl]

theorem keepQueueSizeStep_failure_eq {α : Type} (s : SchedState α) (pos : Nat)
    (next : α) (rest : List α) (slot : Slot α) (hab : s.aborted = false)
    (hbl : s.backlog = next :: rest) (hw : s.window.get? pos = some slot) :
    keepQueueSizeStep s ⟨pos, Outcome.failure⟩ =
      { s with window := s.window.set pos { slot with settled := true }
               aborted := true } := by
  unfold keepQueueSizeStep
  rw [List.get?_eq_getElem?] at hw
  simp [hab, hbl, hw]

theorem keepQueueSizeStep_success_eq {α : Type} (s : SchedState α) (pos : Nat)
    (next : α) (rest : List α) (slot : Slot α) (hab : s.aborted = false)
    (hbl : s.backlog = next :: rest) (hw : s.window.get? pos = some slot) :
    keepQueueSizeStep s ⟨pos, Outcome.success⟩ =
      { backlog := rest
        window := s.window.set slot.tag (execWith next slot.tag)
        dispatched := s.dispatched ++ [next]
        aborted := false } := by
  unfold keepQueueSizeStep
  rw [List.get?_eq_getElem?] at hw
  simp [hab, hbl, hw]

theorem executeInChunksInit_inv {α : Type} (xs : List α) (L : Nat) :
    SchedInv xs L (executeInChunksInit xs L) := by
  refine ⟨?_, ?_, ?_, ?_, ?_⟩
  · simp [executeInChunksInit, tagFrom_length]
  · exact List.suffix_rfl
  · exact List.take_append_drop L xs
  · intro p sl h
    have := tagFrom_get? 0 (xs.take L) p sl h
    omega
  · intro _ sl hmem
    rcases List.mem_iff_get?.mp hmem with ⟨n, hn⟩
    exact (tagFrom_get? 0 (xs.take L) n sl hn).2

theorem keepQueueSizeStep_inv {α : Type} {xs : List α} {L : Nat}
    {s : SchedState α} (e : Event) (h : SchedInv xs L s) :
    SchedInv xs L (keepQueueSizeStep s e) := by
  obtain ⟨hlen, hsuf, hdisp, halign, hunset⟩ := h
  by_cases hab : s.aborted = true
  · rw [keepQueueSizeStep_of_aborted s e hab]
    exact ⟨hlen, hsuf, hdisp, halign, hunset⟩
  · have hab' : s.aborted = false := by
      cases hb : s.aborted
      · rfl
      · exact absurd hb hab
    cases hbl : s.backlog with
    | nil =>
      rw [keepQueueSizeStep_of_empty s e hbl]
      exact ⟨hlen, hsuf, hdisp, halign, hunset⟩
    | cons next rest =>
      cases hw : s.window.get? e.pos with
      | none =>
        have : keepQueueSizeStep s e = s := by
          unfold keepQueueSizeStep
          rw [List.get?_eq_getElem?] at hw
          simp [hab', hbl, hw]
        rw [this]
        exact ⟨hlen, hsuf, hdisp, halign, hunset⟩
      | some slot =>
        have htag : slot.tag = e.pos := halign e.pos slot hw
        have hposlt : e.pos < s.window.length := listGet?_some_lt hw
        obtain ⟨pos, outc⟩ := e
        simp only at htag hposlt hw
        cases outc with
        | failure =>
          rw [keepQueueSizeStep_failure_eq s pos next rest slot hab' hbl hw]
          refine ⟨by simpa using hlen, hsuf, hdisp, ?_, ?_⟩
          · intro p sl hp
            simp only at hp
            by_cases hpe : pos = p
            · subst hpe
              rw [listSet_get?_self _ _ _ hposlt] at hp
              cases hp
              simpa using htag
            · rw [listSet_get?_ne _ _ _ _ hpe] at hp
              exact halign p sl hp
          · intro hfalse
            simp at hfalse
        | success =>
          rw [keepQueueSizeStep_success_eq s pos next rest slot hab' hbl hw]
          refine ⟨by simpa using hlen, ?_, ?_, ?_, ?_⟩
          · have h1 : rest <:+ s.backlog := hbl ▸ List.suffix_cons next rest
            exact h1.trans hsuf
          · have h2 : (s.dispatched ++ [next]) ++ rest =
                s.dispatched ++ (next :: rest) := by
              rw [List.append_assoc]
              rfl
            simp only
            rw [h2, ← hbl]
            exact hdisp
          · intro p sl hp
            simp only [htag] at hp
            by_cases hpe : pos = p
            · subst hpe
              rw [listSet_get?_self _ _ _ hposlt] at hp
              cases hp
              simp [execWith]
            · rw [listSet_get?_ne _ _ _ _ hpe] at hp
              exact halign p sl hp
          · intro _ sl hmem
            simp only at hmem
            rcases listMem_of_mem_set hmem with hm | hm
            · exact hunset hab' sl hm
            · rw [hm]
              rfl

theorem schedRun_inv {α : Type} {xs : List α} {L : Nat} (evs : List Event)
    {s : SchedState α} (h : SchedInv xs L s) :
    SchedInv xs L (schedRun s evs) := by
  induction evs generalizing s with
  | nil => exact h
  | cons e es ih => exact ih (keepQueueSizeStep_inv e h)

theorem schedStates_inv {α : Type} {xs : List α} {L : Nat} (evs : List Event)
    {s : SchedState α} (h : SchedInv xs L s) :
    ∀ s' ∈ schedStates s evs, SchedInv xs L s' := by
  induction evs generalizing s with
  | nil =>
    intro s' hs'
    simp [schedStates] at hs'
    exact hs' ▸ h
  | cons e es ih =>
    intro s' hs'
    rcases List.mem_cons.mp hs' with h0 | h0
    · exact h0 ▸ h
    · exact ih (keepQueueSizeStep_inv e h) s' h0

theorem executeInChunks_inv {α : Type} (xs : List α) (L : Nat)
    (evs : List Event) : SchedInv xs L (executeInChunks xs L evs) :=
  schedRun_inv evs (executeInChunksInit_inv xs L)

theorem listCountP_eq_length {β : Type} {p : β → Bool} {l : List β}
    (h : ∀ x ∈ l, p x = true) : l.countP p = l.length := by
  induction l with
  | nil => rfl
  | cons a as ih =>
    have ha := h a (List.mem_cons_self a as)
    simp [List.countP_cons, ha,
      ih (fun x hx => h x (List.mem_cons_of_mem _ hx))]

/-- In a state the catch branch has not reached, every window task is still
running, so the in-flight count is the window length. -/
theorem inFlight_of_active {α : Type} {xs : List α} {L : Nat}
    {s : SchedState α} (h : SchedInv xs L s) (hact : s.aborted = false) :
    inFlight s = s.window.length := by
  obtain ⟨_, _, _, _, hunset⟩ := h
  unfold inFlight
  exact listCountP_eq_length (fun sl hsl => by simp [hunset hact sl hsl])

/-- A state whose backlog is non-empty can only arise when the original list
is longer than the limit, and then the window is pinned at exactly `L`. -/
theorem window_full_of_backlog_ne_nil {α : Type} {xs : List α} {L : Nat}
    {s : SchedState α} (h : SchedInv xs L s) (hne : s.backlog ≠ []) :
    L < xs.length ∧ s.window.length = L := by
  obtain ⟨hlen, hsuf, _, _, _⟩ := h
  have hdrop : xs.drop L ≠ [] := by
    intro hd
    rcases hsuf with ⟨t, ht⟩
    rw [hd] at ht
    exact hne (List.append_eq_nil.mp ht).2
  have hlt : L < xs.length := by
    by_contra hc
    exact hdrop (List.drop_eq_nil_of_le (by omega))
  exact ⟨hlt, by rw [hlen]; omega⟩

theorem schedRun_of_empty_backlog {α : Type} (evs : List Event)
    (s : SchedState α) (hbl : s.backlog = []) : schedRun s evs = s := by
  induction evs with
  | nil => rfl
  | cons e es ih =>
    show schedRun (keepQueueSizeStep s e) es = s
    rw [keepQueueSizeStep_of_empty s e hbl]
    exact ih

theorem schedRun_of_aborted {α : Type} (evs : List Event) (s : SchedState α)
    (hab : s.aborted = true) : schedRun s evs = s := by
  induction evs with
  | nil => rfl
  | cons e es ih =>
    show schedRun (keepQueueSizeStep s e) es = s
    rw [keepQueueSizeStep_of_aborted s e hab]
    exact ih

/-- Claim C1 (amended): for every limit `L ≥ 1` and backlog `xs`, the initial
dispatch starts the callbacks for exactly the first `min(L, N)` items, removing
them from the front of the backlog, and at every state of a run at which the
scheduler has not aborted on a rejected task and the backlog is non-empty, the
number of in-flight tasks equals `min(L, remaining work)`.  (As originally
stated — with no exception for the abort — the claim fails; see the
counterexample.) -/
theorem executeInChunks_window_invariant {α : Type} (xs : List α) (L : Nat)
    (evs : List Event) (hL : 1 ≤ L) :
    (executeInChunksInit xs L).dispatched = xs.take L ∧
    (executeInChunksInit xs L).backlog = xs.drop L ∧
    inFlight (executeInChunksInit xs L) = min L xs.length ∧
    ∀ s ∈ schedStates (executeInChunksInit xs L) evs,
      s.aborted = false → s.backlog ≠ [] →
        inFlight s = min L (remainingWork s) := by
  refine ⟨rfl, rfl, ?_, ?_⟩
  · rw [inFlight_of_active (executeInChunksInit_inv xs L) rfl]
    exact (executeInChunksInit_inv xs L).1
  · intro s hs hact hne
    have hinv := schedStates_inv evs (executeInChunksInit_inv xs L) s hs
    have hfull := window_full_of_backlog_ne_nil hinv hne
    have hif : inFlight s = L := by
      rw [inFlight_of_active hinv hact]
      exact hfull.2
    have hmin : min L (remainingWork s) = L := by
      apply Nat.min_eq_left
      unfold remainingWork
      omega
    rw [hif, hmin]

/-- Witness for C1 at limit 2 over a three-element backlog with one successful
settlement. -/
theorem executeInChunks_window_invariant_witness :
    1 ≤ 2 ∧
    ((executeInChunksInit [10, 20, 30] 2).dispatched = List.take 2 [10, 20, 30] ∧
      (executeInChunksInit [10, 20, 30] 2).backlog = List.drop 2 [10, 20, 30] ∧
      inFlight (executeInChunksInit [10, 20, 30] 2) =
        min 2 (List.length [10, 20, 30]) ∧
      ∀ s ∈ schedStates (executeInChunksInit [10, 20, 30] 2)
          [⟨0, Outcome.success⟩],
        s.aborted = false → s.backlog ≠ [] →
          inFlight s = min 2 (remainingWork s)) :=
  ⟨by decide,
    executeInChunks_window_invariant [10, 20, 30] 2 [⟨0, Outcome.success⟩]
      (by decide)⟩

/-- Counterexample to C1 as stated: with limit 1 over backlog `[10, 20]`, after
the single in-flight task rejects, the run reaches a state (the final one)
whose backlog is still non-empty but whose in-flight count is 0, not
`min(1, remaining)`. -/
theorem executeInChunks_inflight_gap_cex :
    executeInChunks [10, 20] 1 [⟨0, Outcome.failure⟩] ∈
        schedStates (executeInChunksInit [10, 20] 1) [⟨0, Outcome.failure⟩] ∧
    (executeInChunks [10, 20] 1 [⟨0, Outcome.failure⟩]).backlog ≠ [] ∧
    inFlight (executeInChunks [10, 20] 1 [⟨0, Outcome.failure⟩]) ≠
      min 1 (remainingWork (executeInChunks [10, 20] 1 [⟨0, Outcome.failure⟩])) := by
  decide

/-- Claim C2 (amended): in every run the dispatch trace is a front segment of
the backlog in order (so no item is ever dispatched twice); and in every run
that drains its backlog — which requires every raced settlement to have
succeeded — the callback is invoked exactly once per item, `N` invocations in
total.  (As originally stated — for every run — the claim fails: a rejected
settlement while the backlog is non-empty leaves the remaining items
undispatched; see the counterexample.) -/
theorem executeInChunks_dispatch_exactly_once {α : Type} (xs : List α)
    (L : Nat) (evs : List Event) :
    (∃ k, (executeInChunks xs L evs).dispatched = xs.take k) ∧
    ((executeInChunks xs L evs).backlog = [] →
      (executeInChunks xs L evs).dispatched = xs ∧
      (executeInChunks xs L evs).dispatched.length = xs.length) := by
  obtain ⟨_, _, hdisp, _, _⟩ := executeInChunks_inv xs L evs
  constructor
  · refine ⟨(executeInChunks xs L evs).dispatched.length, ?_⟩
    have h2 : ((executeInChunks xs L evs).dispatched ++
          (executeInChunks xs L evs).backlog).take
        (executeInChunks xs L evs).dispatched.length =
        (executeInChunks xs L evs).dispatched := List.take_left _ _
    rw [hdisp] at h2
    exact h2.symm
  · intro hb
    rw [hb, List.append_nil] at hdisp
    exact ⟨hdisp, by rw [hdisp]⟩

/-- Witness for C2: limit 1 over `[1, 2, 3]` with two successful settlements
drains the backlog and dispatches each item exactly once, in order. -/
theorem executeInChunks_dispatch_exactly_once_witness :
    (executeInChunks [1, 2, 3] 1
        [⟨0, Outcome.success⟩, ⟨0, Outcome.success⟩]).backlog = [] ∧
    ((executeInChunks [1, 2, 3] 1
        [⟨0, Outcome.success⟩, ⟨0, Outcome.success⟩]).dispatched = [1, 2, 3] ∧
      (executeInChunks [1, 2, 3] 1
        [⟨0, Outcome.success⟩, ⟨0, Outcome.success⟩]).dispatched.length =
        List.length [1, 2, 3]) :=
  ⟨by decide,
    (executeInChunks_dispatch_exactly_once [1, 2, 3] 1
      [⟨0, Outcome.success⟩, ⟨0, Outcome.success⟩]).2 (by decide)⟩

/-- Counterexample to C2 as stated: with limit 1 over `[4, 5]`, the first task
rejects, so the run performs only one callback invocation and item 5 is
skipped even though further settlement events follow. -/
theorem executeInChunks_skipped_item_cex :
    (executeInChunks [4, 5] 1
        [⟨0, Outcome.failure⟩, ⟨0, Outcome.success⟩]).dispatched.length = 1 ∧
    5 ∉ (executeInChunks [4, 5] 1
        [⟨0, Outcome.failure⟩, ⟨0, Outcome.success⟩]).dispatched := by
  decide

/-- Claim C3 (amended): in every reachable state with a non-empty backlog, a
window task occupying position `pos` carries `pos` as its stored index; if it
settles successfully, the task for the next backlog item (taken from the
front) is installed at that same position, tagged with the same index, so slot
identity is preserved; if it settles by rejection, however, no replacement is
installed — the rejected task stays in its slot and the scheduler aborts.  (As
originally stated — replacement regardless of outcome — the claim fails; see
the counterexample.) -/
theorem keepQueueSize_slot_identity {α : Type} (xs : List α) (L : Nat)
    (evs : List Event) (pos : Nat) (slot : Slot α) (next : α) (rest : List α)
    (hact : (executeInChunks xs L evs).aborted = false)
    (hbl : (executeInChunks xs L evs).backlog = next :: rest)
    (hw : (executeInChunks xs L evs).window.get? pos = some slot) :
    slot.tag = pos ∧
    (keepQueueSizeStep (executeInChunks xs L evs)
        ⟨pos, Outcome.success⟩).window.get? pos = some (execWith next pos) ∧
    (keepQueueSizeStep (executeInChunks xs L evs)
        ⟨pos, Outcome.success⟩).backlog = rest ∧
    (keepQueueSizeStep (executeInChunks xs L evs)
        ⟨pos, Outcome.success⟩).dispatched =
      (executeInChunks xs L evs).dispatched ++ [next] ∧
    (keepQueueSizeStep (executeInChunks xs L evs)
        ⟨pos, Outcome.failure⟩).aborted = true ∧
    (keepQueueSizeStep (executeInChunks xs L evs)
        ⟨pos, Outcome.failure⟩).window.get? pos =
      some { slot with settled := true } := by
  have hinv := executeInChunks_inv xs L evs
  have htag : slot.tag = pos := hinv.2.2.2.1 pos slot hw
  have hposlt : pos < (executeInChunks xs L evs).window.length :=
    listGet?_some_lt hw
  rw [keepQueueSizeStep_success_eq _ pos next rest slot hact hbl hw,
    keepQueueSizeStep_failure_eq _ pos next rest slot hact hbl hw]
  refine ⟨htag, ?_, rfl, rfl, rfl, ?_⟩
  · simp only [htag]
    exact listSet_get?_self _ _ _ hposlt
  · simp only
    exact listSet_get?_self _ _ _ hposlt

/-- Witness for C3 at the reachable state after the initial dispatch of
`[7, 8, 9]` with limit 2: slot 1 holds tag 1, and a successful settlement
there installs the task for item 9 at position 1 with tag 1. -/
theorem keepQueueSize_slot_identity_witness :
    ((executeInChunks [7, 8, 9] 2 []).aborted = false ∧
      (executeInChunks [7, 8, 9] 2 []).backlog = 9 :: [] ∧
      (executeInChunks [7, 8, 9] 2 []).window.get? 1 =
        some (⟨1, 8, false⟩ : Slot Nat)) ∧
    ((⟨1, 8, false⟩ : Slot Nat).tag = 1 ∧
      (keepQueueSizeStep (executeInChunks [7, 8, 9] 2 [])
          ⟨1, Outcome.success⟩).window.get? 1 = some (execWith 9 1) ∧
      (keepQueueSizeStep (executeInChunks [7, 8, 9] 2 [])
          ⟨1, Outcome.success⟩).backlog = [] ∧
      (keepQueueSizeStep (executeInChunks [7, 8, 9] 2 [])
          ⟨1, Outcome.success⟩).dispatched =
        (executeInChunks [7, 8, 9] 2 []).dispatched ++ [9] ∧
      (keepQueueSizeStep (executeInChunks [7, 8, 9] 2 [])
          ⟨1, Outcome.failure⟩).aborted = true ∧
      (keepQueueSizeStep (executeInChunks [7, 8, 9] 2 [])
          ⟨1, Outcome.failure⟩).window.get? 1 =
        some { (⟨1, 8, false⟩ : Slot Nat) with settled := true }) :=
  ⟨⟨by decide, by decide, by decide⟩,
    keepQueueSize_slot_identity [7, 8, 9] 2 [] 1 ⟨1, 8, false⟩ 9 []
      (by decide) (by decide) (by decide)⟩

/-- Counterexample to C3 as stated: over backlog `[1, 2]` with limit 1, the
single window task settles by rejection while the backlog still holds item 2;
no replacement task for item 2 is installed at slot 0 — the settled task stays
there — and the scheduler aborts. -/
theorem keepQueueSize_failure_no_replacement_cex :
    (keepQueueSizeStep (executeInChunks [1, 2] 1 [])
        ⟨0, Outcome.failure⟩).window.get? 0 ≠ some (execWith 2 0) ∧
    (keepQueueSizeStep (executeInChunks [1, 2] 1 [])
        ⟨0, Outcome.failure⟩).backlog = [2] ∧
    (keepQueueSizeStep (executeInChunks [1, 2] 1 [])
        ⟨0, Outcome.failure⟩).aborted = true := by
  decide

/-- Claim C4 (amended): a rejected track task does not disturb the other
window slots — every other slot keeps its task, which remains in flight — and
`downloadTrack` does rethrow its failure; but the failure is not contained at
the window level: when the rejection is raced while the backlog is non-empty,
the scheduler aborts, performs no further callback invocation on any later
event, and leaves the remaining backlog undispatched.  (As originally stated —
the scheduler continues dispatching after a per-item failure — the claim
fails; see the counterexample.) -/
theorem scheduler_failure_halts_dispatch {α : Type} (xs : List α) (L : Nat)
    (evs : List Event) (pos : Nat) (slot : Slot α) (next : α) (rest : List α)
    (hact : (executeInChunks xs L evs).aborted = false)
    (hbl : (executeInChunks xs L evs).backlog = next :: rest)
    (hw : (executeInChunks xs L evs).window.get? pos = some slot) :
    (keepQueueSizeStep (executeInChunks xs L evs)
        ⟨pos, Outcome.failure⟩).aborted = true ∧
    (keepQueueSizeStep (executeInChunks xs L evs)
        ⟨pos, Outcome.failure⟩).dispatched =
      (executeInChunks xs L evs).dispatched ∧
    (keepQueueSizeStep (executeInChunks xs L evs)
        ⟨pos, Outcome.failure⟩).backlog = (executeInChunks xs L evs).backlog ∧
    (∀ q, q ≠ pos →
      (keepQueueSizeStep (executeInChunks xs L evs)
          ⟨pos, Outcome.failure⟩).window.get? q =
        (executeInChunks xs L evs).window.get? q) ∧
    (∀ q sl, q ≠ pos →
      (keepQueueSizeStep (executeInChunks xs L evs)
          ⟨pos, Outcome.failure⟩).window.get? q = some sl →
        sl.settled = false) ∧
    (∀ evs2, schedRun (keepQueueSizeStep (executeInChunks xs L evs)
        ⟨pos, Outcome.failure⟩) evs2 =
      keepQueueSizeStep (executeInChunks xs L evs) ⟨pos, Outcome.failure⟩) ∧
    (∀ t : TrackInfo, (downloadTrack t false).2 =
      Except.error (JsError.fetchError t.url)) := by
  have hinv := executeInChunks_inv xs L evs
  rw [keepQueueSizeStep_failure_eq _ pos next rest slot hact hbl hw]
  refine ⟨rfl, rfl, rfl, ?_, ?_, ?_, ?_⟩
  · intro q hq
    simp only
    exact listSet_get?_ne _ _ _ _ (fun hc => hq hc.symm)
  · intro q sl hq hsl
    simp only at hsl
    rw [listSet_get?_ne _ _ _ _ (fun hc => hq hc.symm)] at hsl
    rcases List.mem_iff_get?.mpr ⟨q, hsl⟩ with hmem
    exact hinv.2.2.2.2 hact sl hmem
  · intro evs2
    exact schedRun_of_aborted evs2 _ rfl
  · intro t
    simp [downloadTrack, downloadFile]

/-- Witness for C4 at the reachable state after the initial dispatch of
`[3, 4, 5]` with limit 2, with slot 0 rejecting. -/
theorem scheduler_failure_halts_dispatch_witness :
    ((executeInChunks [3, 4, 5] 2 []).aborted = false ∧
      (executeInChunks [3, 4, 5] 2 []).backlog = 5 :: [] ∧
      (executeInChunks [3, 4, 5] 2 []).window.get? 0 =
        some (⟨0, 3, false⟩ : Slot Nat)) ∧
    ((keepQueueSizeStep (executeInChunks [3, 4, 5] 2 [])
        ⟨0, Outcome.failure⟩).aborted = true ∧
      (keepQueueSizeStep (executeInChunks [3, 4, 5] 2 [])
          ⟨0, Outcome.failure⟩).dispatched =
        (executeInChunks [3, 4, 5] 2 []).dispatched ∧
      (keepQueueSizeStep (executeInChunks [3, 4, 5] 2 [])
          ⟨0, Outcome.failure⟩).backlog =
        (executeInChunks [3, 4, 5] 2 []).backlog ∧
      (∀ q, q ≠ 0 →
        (keepQueueSizeStep (executeInChunks [3, 4, 5] 2 [])
            ⟨0, Outcome.failure⟩).window.get? q =
          (executeInChunks [3, 4, 5] 2 []).window.get? q) ∧
      (∀ q sl, q ≠ 0 →
        (keepQueueSizeStep (executeInChunks [3, 4, 5] 2 [])
            ⟨0, Outcome.failure⟩).window.get? q = some sl →
          sl.settled = false) ∧
      (∀ evs2, schedRun (keepQueueSizeStep (executeInChunks [3, 4, 5] 2 [])
          ⟨0, Outcome.failure⟩) evs2 =
        keepQueueSizeStep (executeInChunks [3, 4, 5] 2 []) ⟨0, Outcome.failure⟩) ∧
      (∀ t : TrackInfo, (downloadTrack t false).2 =
        Except.error (JsError.fetchError t.url))) :=
  ⟨⟨by decide, by decide, by decide⟩,
    scheduler_failure_halts_dispatch [3, 4, 5] 2 [] 0 ⟨0, 3, false⟩ 5 []
      (by decide) (by decide) (by decide)⟩

/-- Counterexample to C4 as stated: with limit 1 over `[3, 4, 5]`, item 4
rejects after item 3 succeeded; although further settlement events follow,
item 5 is never started — a per-item failure does prevent remaining tracks in
the batch from being started. -/
theorem failure_prevents_remaining_dispatch_cex :
    5 ∉ (executeInChunks [3, 4, 5] 1
        [⟨0, Outcome.success⟩, ⟨0, Outcome.failure⟩,
          ⟨0, Outcome.success⟩, ⟨0, Outcome.success⟩]).dispatched ∧
    (executeInChunks [3, 4, 5] 1
        [⟨0, Outcome.success⟩, ⟨0, Outcome.failure⟩,
          ⟨0, Outcome.success⟩, ⟨0, Outcome.success⟩]).aborted = true := by
  decide

/-- Claim C10: for every backlog with `N ≤ limit`, after the initial dispatch
the backlog is empty and `keepQueueSize` takes its empty branch: whatever
settlement events occur, the state never changes — no replenishment happens,
no task outcome is observed, the error branch never runs — and every item was
already dispatched initially. -/
theorem executeInChunks_smallBacklog {α : Type} (xs : List α) (L : Nat)
    (evs : List Event) (h : xs.length ≤ L) :
    executeInChunks xs L evs = executeInChunksInit xs L ∧
    (executeInChunks xs L evs).aborted = false ∧
    (executeInChunks xs L evs).dispatched = xs := by
  have hbl : (executeInChunksInit xs L).backlog = [] := by
    show xs.drop L = []
    exact List.drop_eq_nil_of_le h
  have hrun : executeInChunks xs L evs = executeInChunksInit xs L :=
    schedRun_of_empty_backlog evs _ hbl
  refine ⟨hrun, by rw [hrun]; rfl, ?_⟩
  rw [hrun]
  show xs.take L = xs
  exact List.take_of_length_le h

/-- Witness for C10: backlog `[1, 2]` with limit 3 ignores every settlement
event, never aborts, and has dispatched both items initially. -/
theorem executeInChunks_smallBacklog_witness :
    List.length [1, 2] ≤ 3 ∧
    (executeInChunks [1, 2] 3 [⟨0, Outcome.failure⟩, ⟨1, Outcome.success⟩] =
        executeInChunksInit [1, 2] 3 ∧
      (executeInChunks [1, 2] 3
        [⟨0, Outcome.failure⟩, ⟨1, Outcome.success⟩]).aborted = false ∧
      (executeInChunks [1, 2] 3
        [⟨0, Outcome.failure⟩, ⟨1, Outcome.success⟩]).dispatched = [1, 2]) :=
  ⟨by decide,
    executeInChunks_smallBacklog [1, 2] 3
      [⟨0, Outcome.failure⟩, ⟨1, Outcome.success⟩] (by decide)⟩

/-! Facts about `prepareAlbumDir` and unfoldings of `mainRun`. -/

theorem prepareAlbumDir_snd_cons (t0 : TrackInfo) (ts : List TrackInfo)
    (o : DirOracle) :
    (prepareAlbumDir (t0 :: ts) o).2 =
      Except.ok (cleanUpSymbols t0.artist ++ "/" ++ cleanUpSymbols t0.album) := by
  cases h : o.dirExists <;> simp [prepareAlbumDir, h]

theorem prepareAlbumDir_no_fileWrite (ts : List TrackInfo) (o : DirOracle)
    (u f : String) : Effect.fileWrite u f ∉ (prepareAlbumDir ts o).1 := by
  cases ts with
  | nil => simp [prepareAlbumDir]
  | cons t0 ts => cases h : o.dirExists <;> simp [prepareAlbumDir, h]

theorem mainRun_singleTrack_eq (t0 : TrackInfo) (ts : List TrackInfo)
    (opts : RunOptions) (dirO : DirOracle) (coverOk : Bool) (cov : String)
    (k : Nat) (hID : opts.trackID = some k) (hk : k ≠ 0) :
    mainRun (Except.ok (t0 :: ts, cov)) opts dirO coverOk =
      (prepareAlbumDir (t0 :: ts) dirO).1 ++
        [Effect.schedule (((t0 :: ts).drop (k - 1)).take 1) 1] := by
  simp only [mainRun, prepareAlbumDir_snd_cons, hID]
  simp [hk]

theorem mainRun_full_eq (t0 : TrackInfo) (ts : List TrackInfo)
    (opts : RunOptions) (dirO : DirOracle) (coverOk : Bool) (cov : String)
    (hID : opts.trackID = none) :
    mainRun (Except.ok (t0 :: ts, cov)) opts dirO coverOk =
      (prepareAlbumDir (t0 :: ts) dirO).1 ++
        (downloadCover cov
          (cleanUpSymbols t0.artist ++ "/" ++ cleanUpSymbols t0.album)
          coverOk).1 ++
        [Effect.schedule (t0 :: ts) opts.parallelDownloads] := by
  simp only [mainRun, prepareAlbumDir_snd_cons, hID]

/-- Claim C5 (amended): an empty track-descriptor sequence makes the run abort
before any directory creation — reading the first descriptor throws, the
rejection unwinds to the top-level catch, and the resulting trace consists of
console logs only (no filesystem access, no write, no scheduling), headed by
the "Failed to download the album" summary.  (As originally stated the claim
also asserts a "no tracks found" report, which the program never produces; see
the counterexample.) -/
theorem mainRun_emptyTracks_aborts (coverURL : String) (opts : RunOptions)
    (dirO : DirOracle) (coverOk : Bool) :
    (mainRun (Except.ok ([], coverURL)) opts dirO coverOk).head? =
      some (Effect.log ("Failed to download the album: " ++
        errString (JsError.typeError "Cannot read property of undefined"))) ∧
    ∀ e ∈ mainRun (Except.ok ([], coverURL)) opts dirO coverOk,
      Effect.isLog e = true := by
  have hm : mainRun (Except.ok ([], coverURL)) opts dirO coverOk =
      catchLog (JsError.typeError "Cannot read property of undefined") opts := by
    simp [mainRun, prepareAlbumDir]
  rw [hm]
  constructor
  · rfl
  · intro e he
    unfold catchLog at he
    rcases List.mem_cons.mp he with h | h
    · rw [h]
      rfl
    · by_cases hd : opts.isDebugMode
      · simp [hd] at h
        rw [h]
        rfl
      · simp [hd] at h

/-- Counterexample to C5 as stated: on a concrete empty-parse run the whole
trace is the single top-level failure summary and no log message contains the
phrase "no tracks found". -/
theorem mainRun_no_noTracksFound_cex :
    mainRun (Except.ok ([], "cover")) ⟨5, false, none⟩ ⟨false, true, true⟩ true =
      [Effect.log
        "Failed to download the album: TypeError: Cannot read property of undefined"] ∧
    (logsOf (mainRun (Except.ok ([], "cover")) ⟨5, false, none⟩
        ⟨false, true, true⟩ true)).all
      (fun m => !listInfixOf ("no tracks found".data) m.data) = true := by
  constructor
  · rfl
  · decide

/-- Claim C7: with the single-track override set to a 1-based ordinal `k` that
the album has, the orchestrator runs the scheduler over a backlog holding
exactly the `k`-th descriptor with limit 1, and the cover download is skipped:
no file write of any kind — in particular no `cover.jpg` write — appears in
the run trace. -/
theorem mainRun_singleTrack (tracks : List TrackInfo) (k : Nat)
    (opts : RunOptions) (dirO : DirOracle) (coverOk : Bool) (cov : String)
    (hID : opts.trackID = some k) (h1 : 1 ≤ k) (h2 : k ≤ tracks.length) :
    ∃ t, tracks.get? (k - 1) = some t ∧
      mainRun (Except.ok (tracks, cov)) opts dirO coverOk =
        (prepareAlbumDir tracks dirO).1 ++ [Effect.schedule [t] 1] ∧
      ∀ u f, Effect.fileWrite u f ∉
        mainRun (Except.ok (tracks, cov)) opts dirO coverOk := by
  cases tracks with
  | nil =>
    simp at h2
    omega
  | cons t0 ts =>
    obtain ⟨t, ht⟩ :=
      listGet?_isSome_of_lt (l := t0 :: ts) (n := k - 1) (by omega)
    have hm := mainRun_singleTrack_eq t0 ts opts dirO coverOk cov k hID
      (by omega)
    rw [listTakeOne_drop ht] at hm
    refine ⟨t, ht, hm, ?_⟩
    intro u f hmem
    rw [hm] at hmem
    rcases List.mem_append.mp hmem with h | h
    · exact prepareAlbumDir_no_fileWrite _ _ u f h
    · simp at h

/-- Witness for C7: ordinal 2 on a three-track album schedules exactly the
second descriptor with limit 1 and writes no file in the orchestrator trace. -/
theorem mainRun_singleTrack_witness :
    ((⟨5, false, some 2⟩ : RunOptions).trackID = some 2 ∧ 1 ≤ 2 ∧
      2 ≤ sampleTracks.length) ∧
    ∃ t, sampleTracks.get? (2 - 1) = some t ∧
      mainRun (Except.ok (sampleTracks, "cv")) ⟨5, false, some 2⟩
          ⟨true, true, true⟩ true =
        (prepareAlbumDir sampleTracks ⟨true, true, true⟩).1 ++
          [Effect.schedule [t] 1] ∧
      ∀ u f, Effect.fileWrite u f ∉
        mainRun (Except.ok (sampleTracks, "cv")) ⟨5, false, some 2⟩
          ⟨true, true, true⟩ true :=
  ⟨⟨rfl, by decide, by decide⟩,
    mainRun_singleTrack sampleTracks 2 ⟨5, false, some 2⟩ ⟨true, true, true⟩
      true "cv" rfl (by decide) (by decide)⟩

/-- Claim C8: a cover-download failure is non-fatal.  `downloadCover` fulfills
for both fetch outcomes (its catch swallows the error), logs "Failed to
download cover" on failure, and the run still schedules the full descriptor
list with the configured concurrency limit. -/
theorem downloadCover_nonfatal (coverURL albumDir : String) (ok : Bool)
    (t0 : TrackInfo) (ts : List TrackInfo) (opts : RunOptions)
    (dirO : DirOracle) (cov : String) (hID : opts.trackID = none) :
    (downloadCover coverURL albumDir ok).2 = Except.ok () ∧
    Effect.log "Failed to download cover" ∈
      (downloadCover coverURL albumDir false).1 ∧
    Effect.schedule (t0 :: ts) opts.parallelDownloads ∈
      mainRun (Except.ok (t0 :: ts, cov)) opts dirO false := by
  refine ⟨?_, ?_, ?_⟩
  · cases ok <;> simp [downloadCover, downloadFile]
  · simp [downloadCover, downloadFile]
  · rw [mainRun_full_eq t0 ts opts dirO false cov hID]
    simp

/-- Witness for C8 on a concrete one-track album with a failing cover fetch. -/
theorem downloadCover_nonfatal_witness :
    (⟨3, true, none⟩ : RunOptions).trackID = none ∧
    ((downloadCover "cu" "ad" true).2 = Except.ok () ∧
      Effect.log "Failed to download cover" ∈ (downloadCover "cu" "ad" false).1 ∧
      Effect.schedule [⟨"u", "02", "S", "X", "Y"⟩]
          (⟨3, true, none⟩ : RunOptions).parallelDownloads ∈
        mainRun (Except.ok ([⟨"u", "02", "S", "X", "Y"⟩], "cv"))
          ⟨3, true, none⟩ ⟨true, true, true⟩ false) :=
  ⟨rfl, downloadCover_nonfatal "cu" "ad" true ⟨"u", "02", "S", "X", "Y"⟩ []
    ⟨3, true, none⟩ ⟨true, true, true⟩ "cv" rfl⟩

/-- Claim C9 (amended): `prepareAlbumDir` never surfaces a directory-creation
failure — both `fs.mkdir` callbacks discard their error argument, so for every
non-empty descriptor list and every filesystem oracle it resolves with the
album directory path (the failed creation attempt is visible in the trace but
ignored), and the run goes on to schedule all track downloads.  The only
rejection `prepareAlbumDir` can produce is the type error on an empty
descriptor list, which does unwind to the top-level handler.  (As originally
stated — directory-creation failure is fatal and stops all downloads — the
claim fails; see the counterexample.) -/
theorem prepareAlbumDir_never_rejects (t0 : TrackInfo) (ts : List TrackInfo)
    (o : DirOracle) (opts : RunOptions) (cov : String) (coverOk : Bool)
    (hID : opts.trackID = none) :
    (prepareAlbumDir (t0 :: ts) o).2 =
      Except.ok (cleanUpSymbols t0.artist ++ "/" ++ cleanUpSymbols t0.album) ∧
    (o.dirExists = false →
      Effect.fsMkdir (cleanUpSymbols t0.artist ++ "/" ++ cleanUpSymbols t0.album)
          o.mkdirAlbumOk ∈ (prepareAlbumDir (t0 :: ts) o).1) ∧
    Effect.schedule (t0 :: ts) opts.parallelDownloads ∈
      mainRun (Except.ok (t0 :: ts, cov)) opts o coverOk ∧
    ∀ o2 : DirOracle, (prepareAlbumDir [] o2).2 =
      Except.error (JsError.typeError "Cannot read property of undefined") := by
  refine ⟨prepareAlbumDir_snd_cons t0 ts o, ?_, ?_, ?_⟩
  · intro hde
    simp [prepareAlbumDir, hde]
  · rw [mainRun_full_eq t0 ts opts o coverOk cov hID]
    simp
  · intro o2
    rfl

/-- Witness for C9 on a concrete album whose directory creations both fail. -/
theorem prepareAlbumDir_never_rejects_witness :
    (⟨5, false, none⟩ : RunOptions).trackID = none ∧
    ((prepareAlbumDir [⟨"hu", "03", "T3", "AC", "DC"⟩]
        ⟨false, true, false⟩).2 =
      Except.ok (cleanUpSymbols "AC" ++ "/" ++ cleanUpSymbols "DC") ∧
      ((⟨false, true, false⟩ : DirOracle).dirExists = false →
        Effect.fsMkdir (cleanUpSymbols "AC" ++ "/" ++ cleanUpSymbols "DC")
            (⟨false, true, false⟩ : DirOracle).mkdirAlbumOk ∈
          (prepareAlbumDir [⟨"hu", "03", "T3", "AC", "DC"⟩]
            ⟨false, true, false⟩).1) ∧
      Effect.schedule [⟨"hu", "03", "T3", "AC", "DC"⟩]
          (⟨5, false, none⟩ : RunOptions).parallelDownloads ∈
        mainRun (Except.ok ([⟨"hu", "03", "T3", "AC", "DC"⟩], "cv"))
          ⟨5, false, none⟩ ⟨false, true, false⟩ true ∧
      ∀ o2 : DirOracle, (prepareAlbumDir [] o2).2 =
        Except.error (JsError.typeError "Cannot read property of undefined")) :=
  ⟨rfl, prepareAlbumDir_never_rejects ⟨"hu", "03", "T3", "AC", "DC"⟩ []
    ⟨false, true, false⟩ ⟨5, false, none⟩ "cv" true rfl⟩

/-- Counterexample to C9 as stated: with an oracle on which the album
directory is missing and both creations fail, `prepareAlbumDir` still resolves
with the album path, the failed creation having been silently ignored, and the
orchestrator proceeds to schedule the track downloads — the failure neither
surfaces nor prevents any download from starting. -/
theorem prepareAlbumDir_failure_not_fatal_cex :
    (prepareAlbumDir [⟨"hx", "01", "T", "A", "B"⟩] ⟨false, false, false⟩).2 =
      Except.ok "A/B" ∧
    Effect.fsMkdir "A/B" false ∈
      (prepareAlbumDir [⟨"hx", "01", "T", "A", "B"⟩] ⟨false, false, false⟩).1 ∧
    Effect.schedule [⟨"hx", "01", "T", "A", "B"⟩] 5 ∈
      mainRun (Except.ok ([⟨"hx", "01", "T", "A", "B"⟩], "c"))
        ⟨5, false, none⟩ ⟨false, false, false⟩ true := by
  decide

/-- Claim C6: the sanitizer `cleanUpSymbols` is idempotent — applying it twice
equals applying it once — and its result contains none of the characters
colon, slash, double quote, asterisk, less-than, greater-than, vertical bar,
question mark. -/
theorem cleanUpSymbols_idempotent_and_safe (s : String) :
    cleanUpSymbols (cleanUpSymbols s) = cleanUpSymbols s ∧
      ∀ c ∈ (cleanUpSymbols s).data, forbiddenChar c = false := by
  constructor
  · simp [cleanUpSymbols, List.filter_filter]
  · intro c hc
    simp [cleanUpSymbols, List.mem_filter] at hc
    simpa using hc.2
